import Mathlib

/-!
Verification of the job-application demo app (multi-platform React Native
example).  The two cores described by the specification are embedded
shallowly:

* the List View Engine (`src/components/ApplicationsList.js`): status
  filtering, column sorting and pagination over an in-memory collection;
* the Form State Controller (`src/components/JobApplicationForm.js`
  together with `src/utils/validation.js` and `App.js`): the multi-step
  form, its dependency cascades, step validation, draft saving and
  submission.

JavaScript numbers that only ever hold integers in this program are
modelled as `Int` (ids, salaries) or `Nat` (step counter, page counter,
clock readings).  JavaScript truthiness of a number is `≠ 0`.
-/

set_option maxRecDepth 4096

/-- A listing record, as found in `mockData.mockApplications` and consumed
by `ApplicationsList`. -/
structure AppRec where
  id : Int
  firstName : String
  lastName : String
  email : String
  country : String
  city : String
  industry : String
  role : String
  experience : String
  salary : Int
  status : String
  createdAt : String
  deriving Repr, DecidableEq

/-- The column keys that `handleSort` is invoked with in
`ApplicationsList` (the sortable table headers), plus the initial sort
field `createdAt`. -/
inductive SortField where
  | id | firstName | email | country | role | salary | status | createdAt
  deriving Repr, DecidableEq

/-- Sort direction, `'asc'` / `'desc'` in the source. -/
inductive SortDir where
  | asc | desc
  deriving Repr, DecidableEq

/-- A dynamic JavaScript value read by `a[sortField]`: every sortable
field of a listing record is either a number or a string. -/
inductive JSVal where
  | num (n : Int)
  | str (s : String)
  deriving Repr, DecidableEq

/-- Field access `a[sortField]` for the sortable columns. -/
def getVal (f : SortField) (a : AppRec) : JSVal :=
  match f with
  | .id => .num a.id
  | .firstName => .str a.firstName
  | .email => .str a.email
  | .country => .str a.country
  | .role => .str a.role
  | .salary => .num a.salary
  | .status => .str a.status
  | .createdAt => .str a.createdAt

/-- The `String.prototype.toLowerCase()` on the ASCII data this program
holds: lower-case every character. -/
def jsToLower (s : String) : String :=
  String.mk (s.data.map Char.toLower)

/-- Lexicographic (code-unit) comparison of character lists — the order
JavaScript's `<` uses on strings. -/
def charListLt : List Char → List Char → Bool
  | [], [] => false
  | [], _ :: _ => true
  | _ :: _, [] => false
  | a :: as, b :: bs => if a < b then true else if b < a then false else charListLt as bs

/-- JavaScript `a < b` on strings. -/
def jsStrLt (a b : String) : Bool :=
  charListLt a.data b.data

/-- The comparator's type test and lower-casing step:
`if (typeof aVal === 'string') { aVal = aVal.toLowerCase(); ... }`. -/
def normVal : JSVal → JSVal
  | .num n => .num n
  | .str s => .str (jsToLower s)

/-- JavaScript `aVal > bVal` for two values of the same runtime type
(number/number or string/string; the program never compares mixed types
because both operands come from the same column).  String comparison is
lexicographic, as in JavaScript. -/
def jsGtVal : JSVal → JSVal → Bool
  | .num a, .num b => b < a
  | .str a, .str b => jsStrLt b a
  | _, _ => false

/-- JavaScript `aVal < bVal`, same conventions as `jsGtVal`. -/
def jsLtVal : JSVal → JSVal → Bool
  | .num a, .num b => a < b
  | .str a, .str b => jsStrLt a b
  | _, _ => false

/-- The effective sort key of a record for a column: the field value
after the comparator's lower-casing step (`aVal` at the comparison
site). -/
def sortKey (f : SortField) (a : AppRec) : JSVal :=
  normVal (getVal f a)

/-- The sort comparator of `sortedAndFilteredData`: lower-case string
operands, then `asc`: `aVal > bVal ? 1 : -1`, `desc`:
`aVal < bVal ? 1 : -1`.  Note that it never returns `0`. -/
def cmpApp (f : SortField) (d : SortDir) (a b : AppRec) : Int :=
  match d with
  | .asc => if jsGtVal (sortKey f a) (sortKey f b) then 1 else -1
  | .desc => if jsLtVal (sortKey f a) (sortKey f b) then 1 else -1

/-- The `Array.prototype.sort` consumes the comparator through the test
`comparator(x, y) < 0` ("x sorts before y"). -/
def leOf (f : SortField) (d : SortDir) (a b : AppRec) : Bool :=
  decide (cmpApp f d a b < 0)

/-- One insertion step of the engines' binary-insertion ordering: the
element is placed at the first position whose occupant `y` satisfies
`comparator(x, y) < 0`.  Because the source comparator reports `-1` on
ties (it never returns `0`), it is not a consistent comparison function
in the ECMAScript sense and the engines' TimSort binary-insertion pass
places a later element before earlier elements with an equal key; this
function reproduces that order. -/
def jsInsert (le : AppRec → AppRec → Bool) (x : AppRec) : List AppRec → List AppRec
  | [] => [x]
  | y :: ys => if le x y then x :: y :: ys else y :: jsInsert le x ys

/-- The `[...filtered].sort(comparator)`: insert the elements left to right. -/
def jsSortRun (le : AppRec → AppRec → Bool) (l : List AppRec) : List AppRec :=
  l.foldl (fun acc x => jsInsert le x acc) []

/-- The list view's component state (`ApplicationsList`): collection,
page number, sort field/direction and status filter.  `itemsPerPage` is
the constant `5` of the source. -/
structure ListState where
  applications : List AppRec
  currentPage : Nat
  sortField : SortField
  sortDirection : SortDir
  filterStatus : String
  deriving Repr, DecidableEq

/-- The `useState(5)` — the page size is fixed. -/
def itemsPerPage : Nat := 5

/-- The filtering stage of `sortedAndFilteredData`:
`if (filterStatus !== 'all') filtered = filtered.filter(...)`. -/
def filteredApps (s : ListState) : List AppRec :=
  if s.filterStatus ≠ "all" then
    s.applications.filter (fun app => app.status == s.filterStatus)
  else
    s.applications

/-- The `sortedAndFilteredData`: filter by status, then sort with the
comparator. -/
def sortedAndFilteredData (s : ListState) : List AppRec :=
  jsSortRun (leOf s.sortField s.sortDirection) (filteredApps s)

/-- The `totalPages = Math.ceil(sortedAndFilteredData.length / itemsPerPage)`
(ceiling division; there is no flooring at 1 in the source). -/
def totalPages (s : ListState) : Nat :=
  ((sortedAndFilteredData s).length + (itemsPerPage - 1)) / itemsPerPage

/-- The `paginatedData`: `slice(startIndex, startIndex + itemsPerPage)` with
`startIndex = (currentPage - 1) * itemsPerPage`. -/
def paginatedData (s : ListState) : List AppRec :=
  (((sortedAndFilteredData s).drop ((s.currentPage - 1) * itemsPerPage)).take itemsPerPage)

/-- The filter buttons' press handler:
`setFilterStatus(status); setCurrentPage(1)`. -/
def setFilterOp (s : ListState) (status : String) : ListState :=
  { s with filterStatus := status, currentPage := 1 }

/-- The `handleSort(field)`: flip the direction if the field is already the
active sort field, otherwise select the field ascending.  The page
number is not touched. -/
def handleSort (s : ListState) (field : SortField) : ListState :=
  if s.sortField = field then
    { s with sortDirection := if s.sortDirection = .asc then .desc else .asc }
  else
    { s with sortField := field, sortDirection := .asc }

/-- A sample submitted record (first record of `mockApplications`),
used as concrete input. -/
def johnDoe : AppRec :=
  { id := 1, firstName := "John", lastName := "Doe",
    email := "john.doe@example.com", country := "United States",
    city := "New York", industry := "Technology",
    role := "Software Engineer", experience := "Senior Level (6-10 years)",
    salary := 120000, status := "submitted",
    createdAt := "2024-11-01T10:30:00Z" }

/-- List state holding only `johnDoe` (a submitted record) with the
`draft` filter active: the filter matches zero records. -/
def emptyFilterState : ListState :=
  { applications := [johnDoe], currentPage := 1, sortField := .createdAt,
    sortDirection := .desc, filterStatus := "draft" }

/-- A city option from `mockData.citiesByCountry`. -/
structure City where
  id : Int
  name : String
  deriving Repr, DecidableEq

/-- A role option from `mockData.rolesByIndustry`, carrying its minimum
salary. -/
structure Role where
  id : Int
  name : String
  minSalary : Int
  deriving Repr, DecidableEq

/-- The `citiesByCountry` of `mockData.js`.  Indexing with an unknown key
yields `undefined` in JavaScript, which the component immediately turns
into `[]` via `citiesByCountry[watchCountry] || []`; the lookup is
therefore modelled as total with default `[]`. -/
def citiesByCountry (c : Int) : List City :=
  if c = 1 then
    [⟨101, "New York"⟩, ⟨102, "Los Angeles"⟩, ⟨103, "Chicago"⟩, ⟨104, "Houston"⟩]
  else if c = 2 then [⟨201, "Toronto"⟩, ⟨202, "Vancouver"⟩, ⟨203, "Montreal"⟩]
  else if c = 3 then [⟨301, "London"⟩, ⟨302, "Manchester"⟩, ⟨303, "Birmingham"⟩]
  else if c = 4 then [⟨401, "Berlin"⟩, ⟨402, "Munich"⟩, ⟨403, "Hamburg"⟩]
  else if c = 5 then [⟨501, "Paris"⟩, ⟨502, "Lyon"⟩, ⟨503, "Marseille"⟩]
  else []

/-- The `rolesByIndustry` of `mockData.js`, same conventions as
`citiesByCountry`. -/
def rolesByIndustry (i : Int) : List Role :=
  if i = 1 then
    [⟨101, "Software Engineer", 80000⟩, ⟨102, "Product Manager", 90000⟩,
     ⟨103, "DevOps Engineer", 85000⟩, ⟨104, "Data Scientist", 95000⟩]
  else if i = 2 then
    [⟨201, "Nurse", 60000⟩, ⟨202, "Medical Assistant", 40000⟩,
     ⟨203, "Healthcare Admin", 50000⟩]
  else if i = 3 then
    [⟨301, "Financial Analyst", 70000⟩, ⟨302, "Accountant", 65000⟩,
     ⟨303, "Investment Banker", 100000⟩]
  else if i = 4 then
    [⟨401, "Teacher", 45000⟩, ⟨402, "Professor", 70000⟩,
     ⟨403, "Administrator", 55000⟩]
  else if i = 5 then
    [⟨501, "Production Manager", 65000⟩, ⟨502, "Quality Engineer", 70000⟩,
     ⟨503, "Operations Manager", 75000⟩]
  else []

/-- The form's field value set (the keys of the component's `formData`
initializer). -/
structure FormValues where
  firstName : String
  lastName : String
  email : String
  phone : String
  countryId : Int
  cityId : Int
  address : String
  postalCode : String
  industryId : Int
  roleId : Int
  experienceId : Int
  expectedSalary : Int
  deriving Repr, DecidableEq

/-- The component's default field values (all strings empty, all
numeric fields `0`). -/
def defaultValues : FormValues :=
  { firstName := "", lastName := "", email := "", phone := "",
    countryId := 0, cityId := 0, address := "", postalCode := "",
    industryId := 0, roleId := 0, experienceId := 0, expectedSalary := 0 }

/-- The state of `JobApplicationForm`: the step counter, the
accumulated `formData`, the live form store (`watch()` over the
react-hook-form values), and the three pieces of dependent-dropdown
state (`availableCities`, `availableRoles`, `selectedRole`). -/
structure FormState where
  step : Nat
  formData : FormValues
  values : FormValues
  availableCities : List City
  availableRoles : List Role
  selectedRole : Option Role
  deriving Repr, DecidableEq

/-- The freshly computed allowed-option set for the city field under a
given parent value: the component computes `citiesByCountry[c] || []`
when `c` is truthy-positive, and otherwise offers nothing. -/
def allowedCities (c : Int) : List City :=
  if 0 < c then citiesByCountry c else []

/-- The freshly computed allowed-option set for the role field under a
given parent value. -/
def allowedRoles (i : Int) : List Role :=
  if 0 < i then rolesByIndustry i else []

/-- The `useEffect` keyed on `[watchCountry]`: when the country is
truthy-positive, publish its city list and clear a stale non-zero city
selection; otherwise clear the list and the city. -/
def countryCascade (s : FormState) : FormState :=
  if 0 < s.values.countryId then
    let cities := citiesByCountry s.values.countryId
    if (cities.find? (fun c => c.id == s.values.cityId)).isNone
        && !(s.values.cityId == 0) then
      { s with availableCities := cities,
               values := { s.values with cityId := 0 } }
    else
      { s with availableCities := cities }
  else
    { s with availableCities := [],
             values := { s.values with cityId := 0 } }

/-- The `useEffect` keyed on `[watchIndustry]`: the same cascade for the
role field, additionally resetting `selectedRole` when the role is
cleared. -/
def industryCascade (s : FormState) : FormState :=
  if 0 < s.values.industryId then
    let roles := rolesByIndustry s.values.industryId
    if (roles.find? (fun r => r.id == s.values.roleId)).isNone
        && !(s.values.roleId == 0) then
      { s with availableRoles := roles,
               values := { s.values with roleId := 0 },
               selectedRole := none }
    else
      { s with availableRoles := roles }
  else
    { s with availableRoles := [],
             values := { s.values with roleId := 0 },
             selectedRole := none }

/-- The `useEffect` keyed on `[watchRole, availableRoles]`: keep
`selectedRole` in sync with the role selection (`find` can miss, giving
`undefined`, modelled by `none`). -/
def roleSync (s : FormState) : FormState :=
  if 0 < s.values.roleId then
    { s with selectedRole := s.availableRoles.find? (fun r => r.id == s.values.roleId) }
  else
    { s with selectedRole := none }

/-- The string-typed form fields. -/
inductive StrField where
  | firstName | lastName | email | phone | address | postalCode
  deriving Repr, DecidableEq

/-- The number-typed form fields. -/
inductive NumField where
  | countryId | cityId | industryId | roleId | experienceId | expectedSalary
  deriving Repr, DecidableEq

/-- Write one string field of the value set. -/
def writeStr (v : FormValues) : StrField → String → FormValues
  | .firstName, x => { v with firstName := x }
  | .lastName, x => { v with lastName := x }
  | .email, x => { v with email := x }
  | .phone, x => { v with phone := x }
  | .address, x => { v with address := x }
  | .postalCode, x => { v with postalCode := x }

/-- Write one numeric field of the value set. -/
def writeNum (v : FormValues) : NumField → Int → FormValues
  | .countryId, x => { v with countryId := x }
  | .cityId, x => { v with cityId := x }
  | .industryId, x => { v with industryId := x }
  | .roleId, x => { v with roleId := x }
  | .experienceId, x => { v with experienceId := x }
  | .expectedSalary, x => { v with expectedSalary := x }

/-- The `setField` on a string field: no dependency effect watches these. -/
def setStrField (s : FormState) (f : StrField) (x : String) : FormState :=
  { s with values := writeStr s.values f x }

/-- The `setField` on a numeric field: write the value, then run the
effects React fires for that field — the country cascade for
`countryId`, the industry cascade followed by the role sync for
`industryId` (the sync's dependency `availableRoles` changes), and the
role sync for `roleId`. -/
def setNumField (s : FormState) (f : NumField) (x : Int) : FormState :=
  let s1 := { s with values := writeNum s.values f x }
  match f with
  | .countryId => countryCascade s1
  | .industryId => roleSync (industryCascade s1)
  | .roleId => roleSync s1
  | _ => s1

/-- One user-level mutation of the form. -/
inductive FormEvent where
  | setStr (f : StrField) (x : String)
  | setNum (f : NumField) (x : Int)
  deriving Repr, DecidableEq

/-- Apply one event. -/
def applyEvent (s : FormState) : FormEvent → FormState
  | .setStr f x => setStrField s f x
  | .setNum f x => setNumField s f x

/-- Apply a sequence of events in order. -/
def applyEvents (s : FormState) : List FormEvent → FormState
  | [] => s
  | e :: es => applyEvents (applyEvent s e) es

/-- Component mount with (merged) initial data `d`: the state hooks
start from `d`, then the three dependency effects run once, in
declaration order. -/
def initForm (d : FormValues) : FormState :=
  roleSync (industryCascade (countryCascade
    { step := 1, formData := d, values := d,
      availableCities := [], availableRoles := [], selectedRole := none }))

/-- An event the rendered UI can issue: the dependent dropdowns only
offer the options currently in `availableCities` / `availableRoles`
(`onSelect` passes `option.id` for a rendered option), so a write to a
dependent field carries either `0` or a currently offered id.  All
other writes are unrestricted. -/
def validEvent (s : FormState) : FormEvent → Bool
  | .setStr _ _ => true
  | .setNum .cityId x => (x == 0) || s.availableCities.any (fun c => c.id == x)
  | .setNum .roleId x => (x == 0) || s.availableRoles.any (fun r => r.id == x)
  | .setNum _ _ => true

/-- Validity of a whole event sequence along its trajectory. -/
def validTrace (s : FormState) : List FormEvent → Bool
  | [] => true
  | e :: es => validEvent s e && validTrace (applyEvent s e) es

/-- The dependency invariant: the published option lists agree with the
freshly computed allowed sets, each dependent field is unset or
currently allowed, and `selectedRole` mirrors the role selection. -/
def DepInvariant (s : FormState) : Prop :=
  s.availableCities = allowedCities s.values.countryId ∧
  s.availableRoles = allowedRoles s.values.industryId ∧
  (s.values.cityId = 0 ∨
    (allowedCities s.values.countryId).any (fun c => c.id == s.values.cityId) = true) ∧
  (s.values.roleId = 0 ∨
    (allowedRoles s.values.industryId).any (fun r => r.id == s.values.roleId) = true) ∧
  s.selectedRole =
    (if 0 < s.values.roleId then
      s.availableRoles.find? (fun r => r.id == s.values.roleId)
    else none)

/-- The city dropdown's `disabled` prop:
`!watchCountry || availableCities.length === 0`. -/
def cityDropdownDisabled (s : FormState) : Bool :=
  (s.values.countryId == 0) || s.availableCities.isEmpty

/-- The form state after choosing country 1 (four known cities) from a
fresh form. -/
def c8Mid : FormState :=
  setNumField (initForm defaultValues) .countryId 1

/-- A character the zod email local part accepts (letters, digits,
underscore, apostrophe (code 39), plus, hyphen, dot). -/
def isLocalChar (c : Char) : Bool :=
  c.isAlphanum || c == '_' || c.toNat == 39 || c == '+' || c == '-' || c == '.'

/-- A character the zod email local part may end with (no dot, no
apostrophe). -/
def isLocalEnd (c : Char) : Bool :=
  c.isAlphanum || c == '_' || c == '+' || c == '-'

/-- Two consecutive dots somewhere in the list. -/
def hasDoubleDot : List Char → Bool
  | a :: b :: rest => (a == '.' && b == '.') || hasDoubleDot (b :: rest)
  | _ => false

/-- Split a character list on a separator (the groups between
occurrences, like `String.split`). -/
def splitChar (sep : Char) : List Char → List (List Char)
  | [] => [[]]
  | c :: cs =>
    let rest := splitChar sep cs
    if c == sep then [] :: rest
    else
      match rest with
      | [] => [[c]]
      | g :: gs => (c :: g) :: gs

/-- A non-final domain label: starts alphanumeric, continues with
alphanumerics or hyphens. -/
def isLabelOk (l : List Char) : Bool :=
  match l with
  | [] => false
  | c :: cs => c.isAlphanum && cs.all (fun d => d.isAlphanum || d == '-')

/-- The final domain label: at least two letters. -/
def isTldOk (l : List Char) : Bool :=
  2 ≤ l.length && l.all Char.isAlpha

/-- The zod email local part: non-empty, allowed characters only, no
leading dot, no double dot, ends in a non-dot character. -/
def localOk (l : List Char) : Bool :=
  match l with
  | [] => false
  | c :: _ =>
    !(c == '.') && !(hasDoubleDot l) && l.all isLocalChar &&
      (match l.getLast? with
       | some e => isLocalEnd e
       | none => false)

/-- The zod email domain part: at least one dot, every inner label
well-formed, final label a two-plus-letter TLD. -/
def domainOk (l : List Char) : Bool :=
  let labels := splitChar '.' l
  2 ≤ labels.length &&
    (match labels.getLast? with
     | some t => isTldOk t
     | none => false) &&
    labels.dropLast.all isLabelOk

/-- The `z.string().email()` — zod's email shape: one `@` separating a
well-formed local part from a well-formed dotted domain. -/
def emailOk (s : String) : Bool :=
  match splitChar '@' s.data with
  | [l, d] => localOk l && domainOk d
  | _ => false

/-- A character of the phone rule's class `[\d\s-()]`. -/
def isPhoneChar (c : Char) : Bool :=
  c.isDigit || c.isWhitespace || c == '-' || c == '(' || c == ')'

/-- The `z.string().regex(/^\+?[\d\s-()]+$/)` — optional leading plus, then
one or more digits/whitespace/hyphens/parentheses. -/
def phoneOk (s : String) : Bool :=
  match s.data with
  | '+' :: rest => !rest.isEmpty && rest.all isPhoneChar
  | l => !l.isEmpty && l.all isPhoneChar

/-- The `personalInfoSchema` (validation.js): the names of the fields that
fail their rule (zod reports every violated field, in declaration
order). -/
def personalInfoErrors (v : FormValues) : List String :=
  (if v.firstName.length < 2 then ["firstName"] else []) ++
  (if v.lastName.length < 2 then ["lastName"] else []) ++
  (if emailOk v.email then [] else ["email"]) ++
  (if phoneOk v.phone then [] else ["phone"])

/-- The `locationSchema`: numeric selectors at least 1, address length at
least 5, postal code length at least 3. -/
def locationErrors (v : FormValues) : List String :=
  (if v.countryId < 1 then ["countryId"] else []) ++
  (if v.cityId < 1 then ["cityId"] else []) ++
  (if v.address.length < 5 then ["address"] else []) ++
  (if v.postalCode.length < 3 then ["postalCode"] else [])

/-- The `professionalInfoSchema`: numeric selectors and the salary at least
1; the schema's `.refine` callback always returns `true` and so never
contributes an issue. -/
def professionalErrors (v : FormValues) : List String :=
  (if v.industryId < 1 then ["industryId"] else []) ++
  (if v.roleId < 1 then ["roleId"] else []) ++
  (if v.experienceId < 1 then ["experienceId"] else []) ++
  (if v.expectedSalary < 1 then ["expectedSalary"] else [])

/-- The `getStepSchema` composed with validation: the failing fields of the
step's schema (the `default` arm of the source `switch` falls back to
the personal-info schema). -/
def stepErrors : Nat → FormValues → List String
  | 1, v => personalInfoErrors v
  | 2, v => locationErrors v
  | 3, v => professionalErrors v
  | _, v => personalInfoErrors v

/-- The `handleNext`: `trigger()` validates the current step; on failure the
state is untouched and the errors are surfaced; on success `formData`
absorbs the current values (`{...formData, ...currentValues}` — and
`watch()` returns every registered field, so the merge is the current
value set) and the step increments. -/
def advance (s : FormState) : FormState × List String :=
  let errs := stepErrors s.step s.values
  if errs.isEmpty then
    ({ s with formData := s.values, step := s.step + 1 }, [])
  else
    (s, errs)

/-- The `handlePrevious`: merge the current values into `formData` and step
back, unconditionally. -/
def retreat (s : FormState) : FormState :=
  { s with formData := s.values, step := s.step - 1 }

/-- Insert a comma before every third digit, processing the reversed
digit list (`k` counts the digits still allowed before the next
comma). -/
def commaRev : List Char → Nat → List Char
  | [], _ => []
  | c :: cs, 0 => ',' :: c :: commaRev cs 2
  | c :: cs, Nat.succ k => c :: commaRev cs k

/-- The `Number.prototype.toLocaleString()` under the default `en-US`
grouping: decimal digits in groups of three separated by commas. -/
def jsToLocaleString (n : Int) : String :=
  let grouped := (commaRev (toString n.natAbs).data.reverse 3).reverse
  if n < 0 then String.mk ('-' :: grouped) else String.mk grouped

/-- The salary error text built in the component:
`Minimum salary for ${name} is $${minSalary.toLocaleString()}`. -/
def salaryErrorMsg (r : Role) : String :=
  "Minimum salary for " ++ r.name ++ " is $" ++ jsToLocaleString r.minSalary

/-- The `salaryError`: non-null exactly when a role is selected, the
expected salary is truthy, and it is strictly below the role's
minimum. -/
def salaryError (s : FormState) : Option String :=
  match s.selectedRole with
  | some r =>
    if s.values.expectedSalary ≠ 0 ∧ s.values.expectedSalary < r.minSalary then
      some (salaryErrorMsg r)
    else none
  | none => none

/-- The observable outcome of pressing `Submit Application`. -/
inductive SubmitResult where
  | fieldInvalid (errs : List String)
  | crossFieldBlocked (msg : String)
  | submitted (finalData : FormValues)
  deriving Repr, DecidableEq

/-- The `handleSubmit(handleFinalSubmit)`: the resolver first validates the
current step's schema (the submit button is rendered at step 3 only) —
on failure `handleFinalSubmit` never runs; otherwise `handleFinalSubmit`
alerts and aborts on `salaryError`, else emits
`{...formData, ...data}` — the full current value set. -/
def submit (s : FormState) : SubmitResult :=
  let errs := stepErrors s.step s.values
  if errs.isEmpty then
    match salaryError s with
    | some m => .crossFieldBlocked m
    | none => .submitted s.values
  else
    .fieldInvalid errs

/-- A Draft/Submission Record as built by `handleSaveDraft` in
`App.js`. -/
structure DraftRecord where
  data : FormValues
  id : Int
  status : String
  savedAt : Int
  deriving Repr, DecidableEq

/-- The `handleSaveDraft`'s record construction:
`id: editingApplication?.id || Date.now()` (the JavaScript `||` falls
through on a falsy — zero — id), `status: 'draft'`,
`savedAt: new Date().toISOString()`.  `savedAt` is modelled by the
millisecond clock value itself: `toISOString` is an injective, monotone
rendering of it. -/
def makeDraft (editingId : Option Int) (data : FormValues) (now : Int) : DraftRecord :=
  { data := data,
    id := match editingId with
          | some i => if i ≠ 0 then i else now
          | none => now,
    status := "draft",
    savedAt := now }

/-- The updater passed to `setSavedDrafts`: `findIndex` the draft's id;
replace that record in place when found, else append. -/
def upsertDraft : List DraftRecord → DraftRecord → List DraftRecord
  | [], d => [d]
  | r :: rs, d => if r.id == d.id then d :: rs else r :: upsertDraft rs d

/-- The identifiers of a stored draft collection. -/
def draftIds (l : List DraftRecord) : List Int :=
  l.map (fun r => r.id)

/-- Inserting one element grows the list by one. -/
theorem jsInsert_length (le : AppRec → AppRec → Bool) (x : AppRec) (l : List AppRec) :
    (jsInsert le x l).length = l.length + 1 := by
  induction l with
  | nil => rfl
  | cons y ys ih =>
    simp only [jsInsert]
    by_cases h : le x y = true
    · simp [h]
    · simp [h, ih]

/-- Auxiliary: the insertion fold preserves total length. -/
theorem jsSortRun_aux_length (le : AppRec → AppRec → Bool) (l acc : List AppRec) :
    (l.foldl (fun acc x => jsInsert le x acc) acc).length = acc.length + l.length := by
  induction l generalizing acc with
  | nil => simp
  | cons x xs ih =>
    simp only [List.foldl_cons]
    rw [ih, jsInsert_length]
    simp only [List.length_cons]
    omega

/-- The sort is a length-preserving rearrangement. -/
theorem jsSortRun_length (le : AppRec → AppRec → Bool) (l : List AppRec) :
    (jsSortRun le l).length = l.length := by
  simpa using jsSortRun_aux_length le l []

/-- Claim C1, counterexample: with a one-record collection whose only
record is `submitted` and the `draft` filter active (zero matching
records), the source computes `totalPages = Math.ceil(0 / 5) = 0`, not
the `1` the claim requires. -/
theorem C1_counterexample :
    totalPages emptyFilterState = 0 ∧ ¬ totalPages emptyFilterState = 1 := by
  decide

/-- Claim C1 (amended): `totalPages = ceil(filteredCount / pageSize)`
with no flooring at 1; when the active status filter matches zero
records, `totalPages` is `0` and the visible slice is empty — the
derivation still raises no error (it is a total function). -/
theorem C1_pagination :
    ∀ s : ListState,
      totalPages s = ((filteredApps s).length + (itemsPerPage - 1)) / itemsPerPage ∧
      ((filteredApps s).length = 0 → totalPages s = 0 ∧ paginatedData s = []) := by
  intro s
  have hlen : (sortedAndFilteredData s).length = (filteredApps s).length :=
    jsSortRun_length _ _
  refine ⟨by rw [totalPages, hlen], ?_⟩
  intro h0
  have hnil : sortedAndFilteredData s = [] := by
    rw [← List.length_eq_zero, hlen, h0]
  constructor
  · rw [totalPages, hnil]
    decide
  · rw [paginatedData, hnil]
    simp

/-- Claim C1 witness: the amended statement evaluated on the concrete
zero-match state. -/
theorem C1_pagination_witness :
    (filteredApps emptyFilterState).length = 0 ∧
      totalPages emptyFilterState = 0 ∧ paginatedData emptyFilterState = [] :=
  ⟨by decide, (C1_pagination emptyFilterState).2 (by decide)⟩

/-- Claim C9: changing the status filter resets the page number to 1
(and installs the new filter), while `handleSort` leaves the page number
unchanged — flipping the direction when the clicked field is already the
active sort field and otherwise selecting that field ascending. -/
theorem C9_filter_resets_page_sort_does_not :
    ∀ (s : ListState) (st : String) (f : SortField),
      (setFilterOp s st).currentPage = 1 ∧
      (setFilterOp s st).filterStatus = st ∧
      (handleSort s f).currentPage = s.currentPage ∧
      (s.sortField = f →
        (handleSort s f).sortField = s.sortField ∧
        (handleSort s f).sortDirection =
          (if s.sortDirection = .asc then .desc else .asc)) ∧
      (s.sortField ≠ f →
        (handleSort s f).sortField = f ∧
        (handleSort s f).sortDirection = .asc) := by
  intro s st f
  refine ⟨rfl, rfl, ?_, ?_, ?_⟩
  · rw [handleSort]
    by_cases h : s.sortField = f <;> simp [h]
  · intro h
    simp [handleSort, h]
  · intro h
    simp [handleSort, h]

/-- Claim C9 witness: the statement instantiated at the concrete
zero-match state, a fresh filter value and the `salary` column (which is
not the active sort field there), discharging the hypotheses. -/
theorem C9_witness :
    (handleSort emptyFilterState .salary).sortField = .salary ∧
      (handleSort emptyFilterState .salary).sortDirection = .asc ∧
      (setFilterOp emptyFilterState "all").currentPage = 1 :=
  have h := C9_filter_resets_page_sort_does_not emptyFilterState "all" .salary
  ⟨(h.2.2.2.2 (by decide)).1, (h.2.2.2.2 (by decide)).2, h.1⟩

/-- Lexicographic comparison is irreflexive. -/
theorem charListLt_self (l : List Char) : charListLt l l = false := by
  induction l with
  | nil => rfl
  | cons c cs ih => simp [charListLt, ih]

/-- The `aVal > bVal` is irreflexive on each runtime type. -/
theorem jsGtVal_self (v : JSVal) : jsGtVal v v = false := by
  cases v with
  | num n => simp [jsGtVal]
  | str s => simp [jsGtVal, jsStrLt, charListLt_self]

/-- The `aVal < bVal` is irreflexive on each runtime type. -/
theorem jsLtVal_self (v : JSVal) : jsLtVal v v = false := by
  cases v with
  | num n => simp [jsLtVal]
  | str s => simp [jsLtVal, jsStrLt, charListLt_self]

/-- On two records with equal sort keys the comparator reports `-1`
(in both directions): the sort therefore treats either one as "before"
the other, never as equal. -/
theorem leOf_of_key_eq (f : SortField) (d : SortDir) (a b : AppRec)
    (h : sortKey f a = sortKey f b) : leOf f d a b = true := by
  cases d <;>
    simp [leOf, cmpApp, h, jsGtVal_self, jsLtVal_self]

/-- Filtering an insertion result to one key class: a freshly inserted
record lands in front of every record already present with the same
key. -/
theorem filter_jsInsert (f : SortField) (d : SortDir) (k : JSVal)
    (x : AppRec) (acc : List AppRec) :
    (jsInsert (leOf f d) x acc).filter (fun r => sortKey f r == k) =
      if sortKey f x == k then
        x :: acc.filter (fun r => sortKey f r == k)
      else
        acc.filter (fun r => sortKey f r == k) := by
  induction acc with
  | nil =>
    by_cases hx : sortKey f x == k <;>
      simp [jsInsert, List.filter_cons, hx]
  | cons y ys ih =>
    simp only [jsInsert]
    by_cases hle : leOf f d x y = true
    · by_cases hx : sortKey f x == k <;>
        simp [hle, List.filter_cons, hx]
    · have hkey : sortKey f x ≠ sortKey f y := by
        intro hk
        exact hle (leOf_of_key_eq f d x y hk)
      simp only [hle, if_neg]
      by_cases hx : sortKey f x == k
      · have hy : (sortKey f y == k) = false := by
          have hxk : sortKey f x = k := by simpa using hx
          simp only [beq_eq_false_iff_ne, ne_eq]
          intro hyk
          exact hkey (hxk ▸ hyk ▸ rfl)
        simp [List.filter_cons, hx, hy, ih]
      · simp only [Bool.not_eq_true] at hx
        simp [List.filter_cons, hx, ih]

/-- Filtering the insertion fold to one key class reverses the
original order of that class (prepending each new member), relative to
whatever was already in the accumulator. -/
theorem filter_jsSortRun_aux (f : SortField) (d : SortDir) (k : JSVal)
    (l acc : List AppRec) :
    (l.foldl (fun acc x => jsInsert (leOf f d) x acc) acc).filter
        (fun r => sortKey f r == k) =
      (l.filter (fun r => sortKey f r == k)).reverse ++
        acc.filter (fun r => sortKey f r == k) := by
  induction l generalizing acc with
  | nil => simp
  | cons x xs ih =>
    simp only [List.foldl_cons]
    rw [ih, filter_jsInsert]
    by_cases hx : sortKey f x == k
    · simp [List.filter_cons, hx]
    · simp only [Bool.not_eq_true] at hx
      simp [List.filter_cons, hx]

/-- Claim C4, counterexample: two records whose `firstName` sort keys
are equal after lower-casing (`"alice"` vs `"Alice"`).  Sorting the
two-record collection by `firstName` ascending returns them in reversed
collection order, because the comparator reports the tie as `-1` and the
engine inserts the later record in front of the earlier one.  The claim
of a stable sort fails. -/
theorem C4_counterexample :
    sortKey .firstName { johnDoe with firstName := "alice", id := 10 } =
        sortKey .firstName { johnDoe with firstName := "Alice", id := 11 } ∧
    sortedAndFilteredData
        { applications := [{ johnDoe with firstName := "alice", id := 10 },
                           { johnDoe with firstName := "Alice", id := 11 }],
          currentPage := 1, sortField := .firstName, sortDirection := .asc,
          filterStatus := "all" } =
      [{ johnDoe with firstName := "Alice", id := 11 },
       { johnDoe with firstName := "alice", id := 10 }] ∧
    sortedAndFilteredData
        { applications := [{ johnDoe with firstName := "alice", id := 10 },
                           { johnDoe with firstName := "Alice", id := 11 }],
          currentPage := 1, sortField := .firstName, sortDirection := .asc,
          filterStatus := "all" } ≠
      [{ johnDoe with firstName := "alice", id := 10 },
       { johnDoe with firstName := "Alice", id := 11 }] := by
  refine ⟨by decide, by decide, by decide⟩

/-- Claim C4 (amended): the comparison is case-insensitive for
string-typed fields — the comparator's verdict depends only on the
lower-cased sort keys of its operands — but the sort is NOT stable:
since the comparator never returns `0`, records whose sort keys compare
equal come out in REVERSED relative collection order (for every
collection, sort field and direction). -/
theorem C4_sort_caseins_reversed_ties :
    (∀ (f : SortField) (d : SortDir) (a b a2 b2 : AppRec),
        sortKey f a = sortKey f a2 → sortKey f b = sortKey f b2 →
        cmpApp f d a b = cmpApp f d a2 b2) ∧
    (∀ (s : ListState) (k : JSVal),
        (sortedAndFilteredData s).filter (fun r => sortKey s.sortField r == k) =
          ((filteredApps s).filter (fun r => sortKey s.sortField r == k)).reverse) := by
  constructor
  · intro f d a b a2 b2 h1 h2
    cases d <;> simp [cmpApp, h1, h2]
  · intro s k
    have h := filter_jsSortRun_aux s.sortField s.sortDirection k (filteredApps s) []
    simpa [sortedAndFilteredData, jsSortRun] using h

/-- Claim C4 witness: case-insensitivity applied at concrete records
(`"alice"` vs `"Alice"` as first operand against `johnDoe`), hypotheses
discharged by evaluation. -/
theorem C4_witness :
    cmpApp .firstName .asc { johnDoe with firstName := "alice", id := 10 } johnDoe =
      cmpApp .firstName .asc { johnDoe with firstName := "Alice", id := 11 } johnDoe :=
  C4_sort_caseins_reversed_ties.1 .firstName .asc
    { johnDoe with firstName := "alice", id := 10 } johnDoe
    { johnDoe with firstName := "Alice", id := 11 } johnDoe
    (by decide) (by decide)

/-- The country cascade leaves every component other than the city list
and the city value untouched. -/
theorem countryCascade_rest (s : FormState) :
    (countryCascade s).values.countryId = s.values.countryId ∧
    (countryCascade s).values.industryId = s.values.industryId ∧
    (countryCascade s).values.roleId = s.values.roleId ∧
    (countryCascade s).availableRoles = s.availableRoles ∧
    (countryCascade s).selectedRole = s.selectedRole ∧
    (countryCascade s).step = s.step ∧
    (countryCascade s).formData = s.formData := by
  simp only [countryCascade]
  by_cases hpos : 0 < s.values.countryId
  · rw [if_pos hpos]
    split <;> simp
  · rw [if_neg hpos]
    simp

/-- The country cascade establishes the city half of the dependency
invariant: the published list is the freshly computed allowed set and
the city value is unset or allowed. -/
theorem countryCascade_city (s : FormState) :
    (countryCascade s).availableCities = allowedCities s.values.countryId ∧
    ((countryCascade s).values.cityId = 0 ∨
      (allowedCities s.values.countryId).any
        (fun c => c.id == (countryCascade s).values.cityId) = true) := by
  simp only [countryCascade]
  by_cases hpos : 0 < s.values.countryId
  · rw [if_pos hpos]
    by_cases hcond :
        (((citiesByCountry s.values.countryId).find?
            (fun c => c.id == s.values.cityId)).isNone
          && !(s.values.cityId == 0)) = true
    · rw [if_pos hcond]
      exact ⟨by simp [allowedCities, hpos], Or.inl rfl⟩
    · rw [if_neg hcond]
      refine ⟨by simp [allowedCities, hpos], ?_⟩
      by_cases hc : s.values.cityId = 0
      · exact Or.inl hc
      · right
        cases hfind : (citiesByCountry s.values.countryId).find?
            (fun c => c.id == s.values.cityId) with
        | none =>
          exact absurd (by simp [hfind, hc]) hcond
        | some c =>
          have hmem := List.mem_of_find?_eq_some hfind
          have hp := List.find?_some hfind
          simp only [allowedCities, if_pos hpos, List.any_eq_true]
          exact ⟨c, hmem, hp⟩
  · rw [if_neg hpos]
    exact ⟨by simp [allowedCities, hpos], Or.inl rfl⟩

/-- The industry cascade leaves the location state and the step
untouched. -/
theorem industryCascade_rest (s : FormState) :
    (industryCascade s).values.countryId = s.values.countryId ∧
    (industryCascade s).values.cityId = s.values.cityId ∧
    (industryCascade s).values.industryId = s.values.industryId ∧
    (industryCascade s).availableCities = s.availableCities ∧
    (industryCascade s).step = s.step ∧
    (industryCascade s).formData = s.formData := by
  simp only [industryCascade]
  by_cases hpos : 0 < s.values.industryId
  · rw [if_pos hpos]
    split <;> simp
  · rw [if_neg hpos]
    simp

/-- The industry cascade establishes the role half of the dependency
invariant. -/
theorem industryCascade_role (s : FormState) :
    (industryCascade s).availableRoles = allowedRoles s.values.industryId ∧
    ((industryCascade s).values.roleId = 0 ∨
      (allowedRoles s.values.industryId).any
        (fun r => r.id == (industryCascade s).values.roleId) = true) := by
  simp only [industryCascade]
  by_cases hpos : 0 < s.values.industryId
  · rw [if_pos hpos]
    by_cases hcond :
        (((rolesByIndustry s.values.industryId).find?
            (fun r => r.id == s.values.roleId)).isNone
          && !(s.values.roleId == 0)) = true
    · rw [if_pos hcond]
      exact ⟨by simp [allowedRoles, hpos], Or.inl rfl⟩
    · rw [if_neg hcond]
      refine ⟨by simp [allowedRoles, hpos], ?_⟩
      by_cases hc : s.values.roleId = 0
      · exact Or.inl hc
      · right
        cases hfind : (rolesByIndustry s.values.industryId).find?
            (fun r => r.id == s.values.roleId) with
        | none =>
          exact absurd (by simp [hfind, hc]) hcond
        | some r =>
          have hmem := List.mem_of_find?_eq_some hfind
          have hp := List.find?_some hfind
          simp only [allowedRoles, if_pos hpos, List.any_eq_true]
          exact ⟨r, hmem, hp⟩
  · rw [if_neg hpos]
    exact ⟨by simp [allowedRoles, hpos], Or.inl rfl⟩

/-- The role sync touches nothing but `selectedRole`. -/
theorem roleSync_rest (s : FormState) :
    (roleSync s).values = s.values ∧
    (roleSync s).availableCities = s.availableCities ∧
    (roleSync s).availableRoles = s.availableRoles ∧
    (roleSync s).step = s.step ∧
    (roleSync s).formData = s.formData := by
  simp only [roleSync]
  split <;> simp

/-- The role sync recomputes `selectedRole` from the role value and the
published role list. -/
theorem roleSync_selected (s : FormState) :
    (roleSync s).selectedRole =
      (if 0 < s.values.roleId then
        s.availableRoles.find? (fun r => r.id == s.values.roleId)
      else none) := by
  simp only [roleSync]
  split <;> simp_all

/-- The role sync establishes the dependency invariant from its first
four conjuncts. -/
theorem depInv_after_sync (s : FormState)
    (h1 : s.availableCities = allowedCities s.values.countryId)
    (h2 : s.availableRoles = allowedRoles s.values.industryId)
    (h3 : s.values.cityId = 0 ∨
      (allowedCities s.values.countryId).any (fun c => c.id == s.values.cityId) = true)
    (h4 : s.values.roleId = 0 ∨
      (allowedRoles s.values.industryId).any (fun r => r.id == s.values.roleId) = true) :
    DepInvariant (roleSync s) := by
  obtain ⟨hv, hac, har, _, _⟩ := roleSync_rest s
  refine ⟨?_, ?_, ?_, ?_, ?_⟩
  · rw [hv, hac]; exact h1
  · rw [hv, har]; exact h2
  · rw [hv]; exact h3
  · rw [hv]; exact h4
  · rw [hv, har]; exact roleSync_selected s

/-- The industry cascade followed by the role sync establishes the
dependency invariant, given the city half already holds. -/
theorem depInv_after_industry_sync (s : FormState)
    (h1 : s.availableCities = allowedCities s.values.countryId)
    (h3 : s.values.cityId = 0 ∨
      (allowedCities s.values.countryId).any (fun c => c.id == s.values.cityId) = true) :
    DepInvariant (roleSync (industryCascade s)) := by
  obtain ⟨hcy, hci, hii, hac, _, _⟩ := industryCascade_rest s
  obtain ⟨hr1, hr2⟩ := industryCascade_role s
  apply depInv_after_sync
  · rw [hac, hcy]; exact h1
  · rw [hr1, hii]
  · rw [hcy, hci]; exact h3
  · rw [hii]; exact hr2

/-- Component mount establishes the dependency invariant for any
initial data. -/
theorem depInvariant_init (d : FormValues) : DepInvariant (initForm d) := by
  rw [initForm]
  apply depInv_after_industry_sync
  · obtain ⟨hc, _⟩ := countryCascade_city
      { step := 1, formData := d, values := d,
        availableCities := [], availableRoles := [], selectedRole := none }
    rw [hc, (countryCascade_rest _).1]
  · obtain ⟨_, hcy⟩ := countryCascade_city
      { step := 1, formData := d, values := d,
        availableCities := [], availableRoles := [], selectedRole := none }
    rw [(countryCascade_rest _).1]
    exact hcy

/-- Every UI-issuable event preserves the dependency invariant. -/
theorem depInv_preserve (s : FormState) (e : FormEvent)
    (hs : DepInvariant s) (he : validEvent s e = true) :
    DepInvariant (applyEvent s e) := by
  obtain ⟨h1, h2, h3, h4, h5⟩ := hs
  cases e with
  | setStr f x =>
    cases f <;> exact ⟨h1, h2, h3, h4, h5⟩
  | setNum f x =>
    cases f with
    | countryId =>
      show DepInvariant (countryCascade { s with values := { s.values with countryId := x } })
      obtain ⟨hcy, hii, hri, har, hsel, _, _⟩ :=
        countryCascade_rest { s with values := { s.values with countryId := x } }
      obtain ⟨hc1, hc2⟩ :=
        countryCascade_city { s with values := { s.values with countryId := x } }
      refine ⟨?_, ?_, ?_, ?_, ?_⟩
      · rw [hc1, hcy]
      · rw [har, hii]; exact h2
      · rw [hcy]; exact hc2
      · rw [hri, hii]; exact h4
      · rw [hsel, hri, har]; exact h5
    | cityId =>
      have hx : ((x == 0) || s.availableCities.any (fun c => c.id == x)) = true := by
        simpa [validEvent] using he
      rw [Bool.or_eq_true] at hx
      refine ⟨h1, h2, ?_, h4, h5⟩
      cases hx with
      | inl h0 => exact Or.inl (by simpa using h0)
      | inr hany => exact Or.inr (h1 ▸ hany)
    | industryId =>
      show DepInvariant (roleSync (industryCascade
        { s with values := { s.values with industryId := x } }))
      exact depInv_after_industry_sync _ h1 h3
    | roleId =>
      have hx : ((x == 0) || s.availableRoles.any (fun r => r.id == x)) = true := by
        simpa [validEvent] using he
      rw [Bool.or_eq_true] at hx
      show DepInvariant (roleSync { s with values := { s.values with roleId := x } })
      refine depInv_after_sync _ h1 h2 h3 ?_
      cases hx with
      | inl h0 => exact Or.inl (by simpa using h0)
      | inr hany => exact Or.inr (h2 ▸ hany)
    | experienceId => exact ⟨h1, h2, h3, h4, h5⟩
    | expectedSalary => exact ⟨h1, h2, h3, h4, h5⟩

/-- The dependency invariant holds after any UI-issuable event
sequence. -/
theorem depInv_trace (es : List FormEvent) (s : FormState)
    (hs : DepInvariant s) (hv : validTrace s es = true) :
    DepInvariant (applyEvents s es) := by
  induction es generalizing s with
  | nil => exact hs
  | cons e es ih =>
    rw [validTrace, Bool.and_eq_true] at hv
    exact ih (applyEvent s e) (depInv_preserve s e hs hv.1) hv.2

/-- Changing the country to a value under which the current city is not
allowed always clears the city to unset. -/
theorem countryChange_clears (s : FormState) (x : Int)
    (h : (allowedCities x).any (fun c => c.id == s.values.cityId) = false) :
    (setNumField s .countryId x).values.cityId = 0 := by
  show (countryCascade { s with values := { s.values with countryId := x } }).values.cityId = 0
  dsimp only [countryCascade]
  by_cases hpos : 0 < x
  · rw [if_pos hpos]
    have hfind : (citiesByCountry x).find? (fun c => c.id == s.values.cityId) = none := by
      rw [List.find?_eq_none]
      intro c hc hp
      have hany : (allowedCities x).any (fun c => c.id == s.values.cityId) = true := by
        simp only [allowedCities, if_pos hpos, List.any_eq_true]
        exact ⟨c, hc, hp⟩
      rw [hany] at h
      exact Bool.noConfusion h
    by_cases hcond :
        (((citiesByCountry x).find? (fun c => c.id == s.values.cityId)).isNone
          && !(s.values.cityId == 0)) = true
    · rw [if_pos hcond]
    · rw [if_neg hcond]
      by_contra hc
      exact hcond (by simp [hfind, hc])
  · rw [if_neg hpos]

/-- Changing the industry to a value under which the current role is not
allowed always clears the role to unset. -/
theorem industryChange_clears (s : FormState) (x : Int)
    (h : (allowedRoles x).any (fun r => r.id == s.values.roleId) = false) :
    (setNumField s .industryId x).values.roleId = 0 := by
  show (roleSync (industryCascade
      { s with values := { s.values with industryId := x } })).values.roleId = 0
  rw [congrArg FormValues.roleId (roleSync_rest _).1]
  dsimp only [industryCascade]
  by_cases hpos : 0 < x
  · rw [if_pos hpos]
    have hfind : (rolesByIndustry x).find? (fun r => r.id == s.values.roleId) = none := by
      rw [List.find?_eq_none]
      intro r hr hp
      have hany : (allowedRoles x).any (fun r => r.id == s.values.roleId) = true := by
        simp only [allowedRoles, if_pos hpos, List.any_eq_true]
        exact ⟨r, hr, hp⟩
      rw [hany] at h
      exact Bool.noConfusion h
    by_cases hcond :
        (((rolesByIndustry x).find? (fun r => r.id == s.values.roleId)).isNone
          && !(s.values.roleId == 0)) = true
    · rw [if_pos hcond]
    · rw [if_neg hcond]
      by_contra hc
      exact hcond (by simp [hfind, hc])
  · rw [if_neg hpos]

/-- Claim C2, counterexample: `setField` calls that only respect the
declared field types can park an arbitrary number in a dependent field —
no cascade watches the dependent itself.  After `setField(countryId, 1)`
then `setField(cityId, 201)` (201 is Toronto, a genuine city id, but of
country 2) the city value is 201, which is neither unset nor in the
allowed-option set computed from the current country. -/
theorem C2_counterexample :
    (applyEvents (initForm defaultValues)
        [.setNum .countryId 1, .setNum .cityId 201]).values.cityId = 201 ∧
    ¬ ((applyEvents (initForm defaultValues)
          [.setNum .countryId 1, .setNum .cityId 201]).values.cityId = 0 ∨
        (allowedCities (applyEvents (initForm defaultValues)
            [.setNum .countryId 1, .setNum .cityId 201]).values.countryId).any
          (fun c => c.id == (applyEvents (initForm defaultValues)
            [.setNum .countryId 1, .setNum .cityId 201]).values.cityId) = true) := by
  refine ⟨by decide, by decide⟩

/-- Claim C2 (amended): restricted to the writes the rendered UI can
issue — a dependent field receives either `0` or an id from its
currently offered option list — after any event sequence from any
initial data each dependent field (`cityId`, `roleId`) is unset or lies
in the allowed-option set freshly computed from its parent's current
value; moreover a parent change that invalidates the dependent's
current value always clears the dependent to unset. -/
theorem C2_dependent_fields :
    (∀ (d : FormValues) (es : List FormEvent),
        validTrace (initForm d) es = true →
        ((applyEvents (initForm d) es).values.cityId = 0 ∨
          (allowedCities (applyEvents (initForm d) es).values.countryId).any
            (fun c => c.id == (applyEvents (initForm d) es).values.cityId) = true) ∧
        ((applyEvents (initForm d) es).values.roleId = 0 ∨
          (allowedRoles (applyEvents (initForm d) es).values.industryId).any
            (fun r => r.id == (applyEvents (initForm d) es).values.roleId) = true)) ∧
    (∀ (s : FormState) (x : Int),
        (allowedCities x).any (fun c => c.id == s.values.cityId) = false →
        (setNumField s .countryId x).values.cityId = 0) ∧
    (∀ (s : FormState) (x : Int),
        (allowedRoles x).any (fun r => r.id == s.values.roleId) = false →
        (setNumField s .industryId x).values.roleId = 0) := by
  refine ⟨?_, countryChange_clears, industryChange_clears⟩
  intro d es hv
  have h := depInv_trace es (initForm d) (depInvariant_init d) hv
  exact ⟨h.2.2.1, h.2.2.2.1⟩

/-- Claim C2 witness: select country 1, pick the offered city 101, then
switch the country to 2 — the trace is UI-issuable and the invariant
conclusion holds at its end. -/
theorem C2_witness :
    ((applyEvents (initForm defaultValues)
        [.setNum .countryId 1, .setNum .cityId 101, .setNum .countryId 2]).values.cityId = 0 ∨
      (allowedCities (applyEvents (initForm defaultValues)
          [.setNum .countryId 1, .setNum .cityId 101, .setNum .countryId 2]).values.countryId).any
        (fun c => c.id == (applyEvents (initForm defaultValues)
          [.setNum .countryId 1, .setNum .cityId 101, .setNum .countryId 2]).values.cityId) = true) ∧
    ((applyEvents (initForm defaultValues)
        [.setNum .countryId 1, .setNum .cityId 101, .setNum .countryId 2]).values.roleId = 0 ∨
      (allowedRoles (applyEvents (initForm defaultValues)
          [.setNum .countryId 1, .setNum .cityId 101, .setNum .countryId 2]).values.industryId).any
        (fun r => r.id == (applyEvents (initForm defaultValues)
          [.setNum .countryId 1, .setNum .cityId 101, .setNum .countryId 2]).values.roleId) = true) :=
  C2_dependent_fields.1 defaultValues
    [.setNum .countryId 1, .setNum .cityId 101, .setNum .countryId 2] (by decide)

/-- Claim C8: setting the country to any id with no known option set
raises no error — the dependent city list becomes empty, the city value
is cleared to unset, and the city dropdown is disabled. -/
theorem C8_unknown_parent (s : FormState) (x : Int)
    (h : citiesByCountry x = []) :
    (setNumField s .countryId x).availableCities = [] ∧
    (setNumField s .countryId x).values.cityId = 0 ∧
    cityDropdownDisabled (setNumField s .countryId x) = true := by
  have hall : allowedCities x = [] := by
    simp only [allowedCities, h]
    split <;> rfl
  have hac : (setNumField s .countryId x).availableCities = [] := by
    have hcc := (countryCascade_city
      { s with values := { s.values with countryId := x } }).1
    exact hcc.trans hall
  refine ⟨hac, ?_, ?_⟩
  · apply countryChange_clears
    rw [hall]
    rfl
  · simp only [cityDropdownDisabled, hac]
    simp

/-- Claim C8 witness: the spec's scenario — country 1 first (4 cities
offered), then country 6, an id with no known cities. -/
theorem C8_witness :
    c8Mid.availableCities.length = 4 ∧
    ((setNumField c8Mid .countryId 6).availableCities = [] ∧
      (setNumField c8Mid .countryId 6).values.cityId = 0 ∧
      cityDropdownDisabled (setNumField c8Mid .countryId 6) = true) :=
  ⟨by decide, C8_unknown_parent c8Mid 6 (by decide)⟩

/-- Claim C3: with a selected role, step-3 fields all passing their own
rules, and the expected compensation strictly below the role's minimum,
`submit()` is blocked by the cross-field error naming the role's
minimum salary — while the step-level validator reports nothing (the
schema's `.refine` is inert), so the rule lives only at submit time. -/
theorem C3_crossfield_submit (s : FormState) (r : Role)
    (hstep : s.step = 3)
    (hrole : s.selectedRole = some r)
    (hok : stepErrors 3 s.values = [])
    (hlow : s.values.expectedSalary < r.minSalary) :
    submit s = .crossFieldBlocked (salaryErrorMsg r) ∧
    (advance s).2 = [] := by
  have hok' : professionalErrors s.values = [] := hok
  have hsal : ¬ (s.values.expectedSalary < 1) := by
    intro hc
    simp [professionalErrors, hc] at hok'
  have hnz : s.values.expectedSalary ≠ 0 := by omega
  have hse : salaryError s = some (salaryErrorMsg r) := by
    simp only [salaryError, hrole]
    rw [if_pos ⟨hnz, hlow⟩]
  constructor
  · simp [submit, hstep, hok, hse]
  · simp [advance, hstep, hok]

/-- Claim C3 witness: the spec's scenario — role `Software Engineer`
(minimum 80000), expected compensation 75000, every per-field rule of
step 3 passing. -/
theorem C3_witness :
    submit
        { step := 3,
          formData := { defaultValues with
            industryId := 1, roleId := 101, experienceId := 3, expectedSalary := 75000 },
          values := { defaultValues with
            industryId := 1, roleId := 101, experienceId := 3, expectedSalary := 75000 },
          availableCities := [], availableRoles := rolesByIndustry 1,
          selectedRole := some ⟨101, "Software Engineer", 80000⟩ } =
      .crossFieldBlocked "Minimum salary for Software Engineer is $80,000" ∧
    (advance
        { step := 3,
          formData := { defaultValues with
            industryId := 1, roleId := 101, experienceId := 3, expectedSalary := 75000 },
          values := { defaultValues with
            industryId := 1, roleId := 101, experienceId := 3, expectedSalary := 75000 },
          availableCities := [], availableRoles := rolesByIndustry 1,
          selectedRole := some ⟨101, "Software Engineer", 80000⟩ }).2 = [] :=
  have h := C3_crossfield_submit
    { step := 3,
      formData := { defaultValues with
            industryId := 1, roleId := 101, experienceId := 3, expectedSalary := 75000 },
      values := { defaultValues with
            industryId := 1, roleId := 101, experienceId := 3, expectedSalary := 75000 },
      availableCities := [], availableRoles := rolesByIndustry 1,
      selectedRole := some ⟨101, "Software Engineer", 80000⟩ }
    ⟨101, "Software Engineer", 80000⟩ (by decide) (by decide) (by decide) (by decide)
  ⟨h.1.trans (by decide), h.2⟩

/-- On a failing step, `advance` is a no-op that returns the failing
fields. -/
theorem advance_fail (s : FormState) (h : stepErrors s.step s.values ≠ []) :
    advance s = (s, stepErrors s.step s.values) := by
  have he : (stepErrors s.step s.values).isEmpty = false := by
    cases hl : stepErrors s.step s.values with
    | nil => exact absurd hl h
    | cons a l => rfl
  simp [advance, he]

/-- On a passing step, `advance` moves up one step, merging the values
into `formData` and surfacing no error. -/
theorem advance_success (s : FormState) (h : stepErrors s.step s.values = []) :
    advance s = ({ s with formData := s.values, step := s.step + 1 }, []) := by
  simp [advance, h]

/-- Claim C6: `advance()` succeeds only when the current step's
validation passes — on any failure the whole state (step and field
values) is unchanged and the failing fields are surfaced; on success
the step increments by one and the values are merged into
`formData`. -/
theorem C6_advance_guarded (s : FormState) :
    (stepErrors s.step s.values ≠ [] →
      advance s = (s, stepErrors s.step s.values)) ∧
    (stepErrors s.step s.values = [] →
      advance s = ({ s with formData := s.values, step := s.step + 1 }, [])) :=
  ⟨advance_fail s, advance_success s⟩

/-- Claim C6 witness: a fresh step-1 form fails (all four fields) and
stays put; a step-1 form with valid personal data advances to
step 2. -/
theorem C6_witness :
    advance
        { step := 1, formData := defaultValues, values := defaultValues,
          availableCities := [], availableRoles := [], selectedRole := none } =
      ({ step := 1, formData := defaultValues, values := defaultValues,
         availableCities := [], availableRoles := [], selectedRole := none },
       ["firstName", "lastName", "email", "phone"]) ∧
    (advance
        { step := 1,
          formData := { defaultValues with
            firstName := "John", lastName := "Doe", email := "john.doe@example.com",
            phone := "+1 (555) 123-4567" },
          values := { defaultValues with
            firstName := "John", lastName := "Doe", email := "john.doe@example.com",
            phone := "+1 (555) 123-4567" },
          availableCities := [], availableRoles := [], selectedRole := none }).1.step = 2 :=
  have hbad := (C6_advance_guarded
    { step := 1, formData := defaultValues, values := defaultValues,
      availableCities := [], availableRoles := [], selectedRole := none }).1 (by decide)
  have hgood := (C6_advance_guarded
    { step := 1,
      formData := { defaultValues with
            firstName := "John", lastName := "Doe", email := "john.doe@example.com",
            phone := "+1 (555) 123-4567" },
      values := { defaultValues with
            firstName := "John", lastName := "Doe", email := "john.doe@example.com",
            phone := "+1 (555) 123-4567" },
      availableCities := [], availableRoles := [], selectedRole := none }).2 (by decide)
  ⟨hbad.trans (by decide), by rw [hgood]⟩

/-- Claim C7: from any state above step 1 whose previous step currently
validates (its fields cannot have changed since it was passed —
completed steps' inputs are not rendered and no cascade writes them),
`retreat()` immediately followed by `advance()` restores the same step
and the identical field value set, with no validation error
surfaced. -/
theorem C7_retreat_advance (s : FormState)
    (h1 : 1 < s.step)
    (h2 : stepErrors (s.step - 1) s.values = []) :
    (advance (retreat s)).1.step = s.step ∧
    (advance (retreat s)).1.values = s.values ∧
    (advance (retreat s)).2 = [] := by
  have hcalc : (advance (retreat s)) =
      ({ retreat s with formData := (retreat s).values, step := (retreat s).step + 1 }, []) :=
    advance_success (retreat s) h2
  rw [hcalc]
  refine ⟨?_, rfl, rfl⟩
  show s.step - 1 + 1 = s.step
  omega

/-- Claim C7 witness: a step-2 state whose step-1 values validate. -/
theorem C7_witness :
    (advance (retreat
        { step := 2,
          formData := { defaultValues with
            firstName := "John", lastName := "Doe", email := "john.doe@example.com",
            phone := "+1 (555) 123-4567" },
          values := { defaultValues with
            firstName := "John", lastName := "Doe", email := "john.doe@example.com",
            phone := "+1 (555) 123-4567" },
          availableCities := [], availableRoles := [], selectedRole := none })).1.step = 2 ∧
    (advance (retreat
        { step := 2,
          formData := { defaultValues with
            firstName := "John", lastName := "Doe", email := "john.doe@example.com",
            phone := "+1 (555) 123-4567" },
          values := { defaultValues with
            firstName := "John", lastName := "Doe", email := "john.doe@example.com",
            phone := "+1 (555) 123-4567" },
          availableCities := [], availableRoles := [], selectedRole := none })).1.values =
      { defaultValues with
            firstName := "John", lastName := "Doe", email := "john.doe@example.com",
            phone := "+1 (555) 123-4567" } :=
  have h := C7_retreat_advance
    { step := 2,
      formData := { defaultValues with
            firstName := "John", lastName := "Doe", email := "john.doe@example.com",
            phone := "+1 (555) 123-4567" },
      values := { defaultValues with
            firstName := "John", lastName := "Doe", email := "john.doe@example.com",
            phone := "+1 (555) 123-4567" },
      availableCities := [], availableRoles := [], selectedRole := none }
    (by decide) (by decide)
  ⟨h.1, h.2.1⟩

/-- Claim C5, counterexample: on a new application (no record being
edited), each `saveDraft` mints a fresh identifier from the clock —
two successive saves at clock readings 1000 and 1001 produce records
with different identifiers, refuting the shared-identifier claim. -/
theorem C5_counterexample :
    (1000 : Int) ≤ 1001 ∧
    (makeDraft none defaultValues 1000).id ≠ (makeDraft none defaultValues 1001).id := by
  refine ⟨by decide, by decide⟩

/-- Claim C5 (amended): when the form is editing an existing record
with a truthy (non-zero) identifier, two successive `saveDraft` calls
(monotone clock) produce records sharing that identifier, the second
timestamp at least the first; for a new application each save mints a
fresh identifier from the clock, so the two records share an identifier
only if both saves read equal clock values. -/
theorem C5_draft_id_stable (i : Int) (d1 d2 : FormValues) (t1 t2 : Int)
    (hi : i ≠ 0) (ht : t1 ≤ t2) :
    (makeDraft (some i) d1 t1).id = (makeDraft (some i) d2 t2).id ∧
    (makeDraft (some i) d1 t1).id = i ∧
    (makeDraft (some i) d1 t1).savedAt ≤ (makeDraft (some i) d2 t2).savedAt ∧
    (∀ (d3 d4 : FormValues) (t : Int),
      (makeDraft none d3 t).id = (makeDraft none d4 t).id) := by
  refine ⟨by simp [makeDraft, hi], by simp [makeDraft, hi], by simpa [makeDraft] using ht,
    fun d3 d4 t => rfl⟩

/-- Claim C5 witness: editing the mock record with id 2; saves at two
increasing clock readings. -/
theorem C5_witness :
    (makeDraft (some 2) defaultValues 1700000000000).id =
      (makeDraft (some 2) defaultValues 1700000000500).id ∧
    (makeDraft (some 2) defaultValues 1700000000000).savedAt ≤
      (makeDraft (some 2) defaultValues 1700000000500).savedAt :=
  have h := C5_draft_id_stable 2 defaultValues defaultValues
    1700000000000 1700000000500 (by decide) (by decide)
  ⟨h.1, h.2.2.1⟩

/-- An in-place replacement keeps the identifier sequence and the
length of the stored collection. -/
theorem upsertDraft_mem_ids (prev : List DraftRecord) (d : DraftRecord)
    (h : d.id ∈ draftIds prev) :
    draftIds (upsertDraft prev d) = draftIds prev ∧
    (upsertDraft prev d).length = prev.length := by
  induction prev with
  | nil => simp [draftIds] at h
  | cons r rs ih =>
    by_cases hid : (r.id == d.id) = true
    · have heq : r.id = d.id := by simpa using hid
      simp [upsertDraft, hid, draftIds, heq]
    · have hne : r.id ≠ d.id := by simpa using hid
      have hmem : d.id ∈ draftIds rs := by
        simp only [draftIds, List.map_cons, List.mem_cons] at h
        rcases h with h | h
        · exact absurd h.symm hne
        · exact h
      obtain ⟨h1, h2⟩ := ih hmem
      constructor
      · simp [upsertDraft, hid, draftIds] at h1 ⊢
        exact h1
      · simp [upsertDraft, hid, h2]

/-- A save with a fresh identifier appends. -/
theorem upsertDraft_fresh (prev : List DraftRecord) (d : DraftRecord)
    (h : d.id ∉ draftIds prev) :
    upsertDraft prev d = prev ++ [d] := by
  induction prev with
  | nil => rfl
  | cons r rs ih =>
    have hne : (r.id == d.id) = false := by
      simp only [beq_eq_false_iff_ne, ne_eq]
      intro he
      exact h (by simp [draftIds, he])
    have hmem : d.id ∉ draftIds rs := by
      intro hm
      exact h (by simp [draftIds] at hm ⊢; exact Or.inr hm)
    simp [upsertDraft, hne, ih hmem]

/-- The saved draft is present in the updated collection. -/
theorem upsertDraft_mem_self (prev : List DraftRecord) (d : DraftRecord) :
    d ∈ upsertDraft prev d := by
  induction prev with
  | nil => exact List.mem_singleton_self d
  | cons r rs ih =>
    by_cases hid : (r.id == d.id) = true
    · simp [upsertDraft, hid]
    · simp [upsertDraft, hid, ih]

/-- One save preserves distinctness of stored identifiers. -/
theorem upsertDraft_nodup (prev : List DraftRecord) (d : DraftRecord)
    (h : (draftIds prev).Nodup) :
    (draftIds (upsertDraft prev d)).Nodup := by
  by_cases hm : d.id ∈ draftIds prev
  · rw [(upsertDraft_mem_ids prev d hm).1]
    exact h
  · rw [upsertDraft_fresh prev d hm]
    simp only [draftIds, List.map_append, List.map_cons, List.map_nil]
    rw [List.nodup_append]
    refine ⟨h, List.nodup_singleton _, ?_⟩
    intro y hy hy'
    simp only [List.mem_singleton] at hy'
    subst hy'
    exact hm hy

/-- Any save sequence starting from the empty collection keeps the
identifiers distinct. -/
theorem saveDraft_fold_nodup (ds : List DraftRecord) :
    (draftIds (ds.foldl upsertDraft [])).Nodup := by
  suffices h : ∀ acc, (draftIds acc).Nodup →
      (draftIds (ds.foldl upsertDraft acc)).Nodup by
    exact h [] (by simp [draftIds])
  induction ds with
  | nil =>
    intro acc h
    simpa using h
  | cons d ds ih =>
    intro acc h
    exact ih _ (upsertDraft_nodup acc d h)

/-- Claim C10: after any sequence of saves the stored collection holds
at most one record per identifier; a save whose identifier already
exists replaces that record in place (same length, same identifier
sequence, new record present), and a save with a fresh identifier
appends. -/
theorem C10_draft_upsert :
    (∀ ds : List DraftRecord, (draftIds (ds.foldl upsertDraft [])).Nodup) ∧
    (∀ (prev : List DraftRecord) (d : DraftRecord),
      d ∈ upsertDraft prev d ∧
      (d.id ∈ draftIds prev →
        draftIds (upsertDraft prev d) = draftIds prev ∧
        (upsertDraft prev d).length = prev.length) ∧
      (d.id ∉ draftIds prev → upsertDraft prev d = prev ++ [d])) :=
  ⟨saveDraft_fold_nodup,
   fun prev d =>
    ⟨upsertDraft_mem_self prev d,
     fun h => upsertDraft_mem_ids prev d h,
     fun h => upsertDraft_fresh prev d h⟩⟩

/-- Claim C10 witness: replacing the record with id 2 in a two-record
store keeps the length at 2; saving id 3 appends. -/
theorem C10_witness :
    (upsertDraft
        [makeDraft (some 1) defaultValues 10, makeDraft (some 2) defaultValues 20]
        (makeDraft (some 2) defaultValues 30)).length = 2 ∧
    upsertDraft
        [makeDraft (some 1) defaultValues 10, makeDraft (some 2) defaultValues 20]
        (makeDraft (some 3) defaultValues 30) =
      [makeDraft (some 1) defaultValues 10, makeDraft (some 2) defaultValues 20,
       makeDraft (some 3) defaultValues 30] :=
  have h2 := (C10_draft_upsert.2
    [makeDraft (some 1) defaultValues 10, makeDraft (some 2) defaultValues 20]
    (makeDraft (some 2) defaultValues 30)).2.1 (by decide)
  have h3 := (C10_draft_upsert.2
    [makeDraft (some 1) defaultValues 10, makeDraft (some 2) defaultValues 20]
    (makeDraft (some 3) defaultValues 30)).2.2 (by decide)
  ⟨h2.2, h3⟩
